import Mathlib

/-!
Verification of the conversion oracle, wire codec and process bridge of the
repository joeycumines/dates-timestamps-and-aggregated-data.

The Go code is shallowly embedded as follows.

Instants: a Go time.Time carries a nanosecond-precision instant; all
arithmetic used by the baseline package (UTC, Truncate, Add, Before, After,
Format) depends only on the instant, which we represent as an Int of
nanoseconds since the Unix epoch.  Go's Truncate rounds down relative to the
Go zero time (0001-01-01T00:00:00 UTC); that reference point is a whole
number of UTC days before the Unix epoch (719162 days), so truncation by 24h
agrees with flooring in Unix nanoseconds.

The zero value time.Time{} is the "unset" sentinel of the baseline package.
A time.Time compares equal (by Go struct equality) to time.Time{} exactly
when its instant is 0001-01-01T00:00:00 UTC and its location is the nil/UTC
location; times produced by time.ParseInLocation(..., time.UTC) and by
adding durations to them have the nil/UTC location, while times produced by
In(time.FixedZone(...)) never equal the zero value.  We therefore model a Go
time.Time value of the baseline code as an Option Int: none is a value that
is struct-equal to time.Time{}, some t is a value that is not, with instant t.

Dates: Go's Format/ParseInLocation with layout 2006-01-02 convert between an
instant (taken at UTC) and the proleptic Gregorian calendar; parsing demands
exactly four year digits, two month digits and two day digits, and validates
the month and the day-of-month range.  The calendar conversions are modelled
with the standard century-based Euclidean decomposition of the Gregorian
calendar, which computes the same year/month/day as Go's time package.
-/

namespace gotime

/-- Nanoseconds in 24 hours (the oneDay constant of the baseline package). -/
def nsPerDay : Int := 86400000000000

/-- Unix nanoseconds of the instant of the Go zero time value,
0001-01-01T00:00:00 UTC: -62135596800 seconds. -/
def zeroInstant : Int := -62135596800000000000

/-- A Go time.Time as used by the baseline package: none is a value that is
struct-equal to the zero value time.Time{} (the unset sentinel); some t is a
time that is not the zero value and whose instant is t Unix nanoseconds. -/
abbrev GoTime := Option Int

/-- Models Go Time.Truncate(24h) on the instant: round down to the enclosing
UTC day start (Go truncates since its zero time, a whole number of days
before the Unix epoch, hence flooring in Unix nanoseconds). -/
def truncDay (t : Int) : Int := t - t % nsPerDay

/-- Go time.isLeap: proleptic Gregorian leap-year rule. -/
def isLeap (y : Int) : Bool := y % 4 == 0 && (y % 100 != 0 || y % 400 == 0)

/-- Go time.daysIn: length of month m of year y (m is 1-based; 0 for an
out-of-range month, which the parser rejects anyway). -/
def daysInMonth (y : Int) (m : Nat) : Nat :=
  match m with
  | 1 => 31 | 2 => if isLeap y then 29 else 28 | 3 => 31 | 4 => 30
  | 5 => 31 | 6 => 30 | 7 => 31 | 8 => 31 | 9 => 30 | 10 => 31
  | 11 => 30 | 12 => 31
  | _ => 0

/-- March-based month index (0 = March .. 11 = February) of the calendar
month m (1 = January .. 12 = December). -/
def mpOfMonth (m : Nat) : Nat := if 3 ≤ m then m - 3 else m + 9

/-- Day of the March-based year for calendar month m and day-of-month d. -/
def doyOfMonthDay (m d : Nat) : Nat := (153 * mpOfMonth m + 2) / 5 + d - 1

/-- March-based year holding the date: the calendar year, less one for
January and February. -/
def yShifted (y : Int) (m : Nat) : Int := y - (if m ≤ 2 then 1 else 0)

/-- Day of the 400-year era for year-of-era yoe, month m, day d. -/
def doeFromCivil (yoe m d : Nat) : Nat :=
  365 * yoe + yoe / 4 - yoe / 100 + doyOfMonthDay m d

/-- Days from the Unix epoch (1970-01-01) of the Gregorian date y-m-d
(m, d being 1-based).  Standard era decomposition: shift to the March-based
year, split into 400-year eras of 146097 days. -/
def daysFromCivil (y : Int) (m d : Nat) : Int :=
  (yShifted y m / 400) * 146097
    + (doeFromCivil (yShifted y m % 400).toNat m d : Int) - 719468

/-- The 400-year era containing day z (counted from the Unix epoch; the era
is taken relative to 0000-03-01, 719468 days before the epoch). -/
def eraOf (z : Int) : Int := (z + 719468) / 146097

/-- Day of the 400-year era of day z. -/
def doeOf (z : Int) : Nat := ((z + 719468) % 146097).toNat

/-- Century of the era (0..3) holding day-of-era doe. -/
def centuryOf (doe : Nat) : Nat := (4 * doe + 3) / 146097

/-- Day within the century holding day-of-era doe. -/
def rOf (doe : Nat) : Nat := doe - 36524 * centuryOf doe

/-- Year within the century (0..99) holding day-of-era doe. -/
def ycOf (doe : Nat) : Nat := (4 * rOf doe + 3) / 1461

/-- Day of the March-based year holding day-of-era doe. -/
def doyOf (doe : Nat) : Nat := rOf doe - (365 * ycOf doe + ycOf doe / 4)

/-- March-based month index (0..11) holding day-of-era doe. -/
def mpOf (doe : Nat) : Nat := (5 * doyOf doe + 2) / 153

/-- Day of the month of day-of-era doe. -/
def dayOf (doe : Nat) : Nat := doyOf doe - (153 * mpOf doe + 2) / 5 + 1

/-- Calendar month (1..12) of day-of-era doe. -/
def monthOf (doe : Nat) : Nat :=
  if mpOf doe < 10 then mpOf doe + 3 else mpOf doe - 9

/-- Calendar year of day z. -/
def yearOf (z : Int) : Int :=
  eraOf z * 400 + (100 * centuryOf (doeOf z) + ycOf (doeOf z) : Nat)
    + (if monthOf (doeOf z) ≤ 2 then 1 else 0)

/-- Gregorian date (y, m, d) of the day z (counted from the Unix epoch),
inverse of daysFromCivil.  Century-based decomposition of the 146097-day
era. -/
def civilFromDays (z : Int) : Int × Nat × Nat :=
  (yearOf z, monthOf (doeOf z), dayOf (doeOf z))

/-- The decimal digit character for n (n below 10). -/
def digitChar (n : Nat) : Char := Char.ofNat (48 + n)

/-- Numeric value of a decimal digit character. -/
def digitVal (c : Char) : Nat := c.toNat - 48

/-- Decimal digits of n, most significant first, fuel-based so that the
kernel can evaluate it (the fuel argument strictly exceeds the number of
divisions by ten that are needed). -/
def natDigitsAux : Nat → Nat → List Char → List Char
  | 0, _, acc => acc
  | fuel + 1, n, acc =>
    if n < 10 then digitChar n :: acc
    else natDigitsAux fuel (n / 10) (digitChar (n % 10) :: acc)

/-- Decimal digits of n, most significant first (Go strconv-style). -/
def natDigits (n : Nat) : List Char := natDigitsAux (n + 1) n []

/-- Go's zero-padding of a year to width four (layout field 2006): for up to
four digits, exactly four characters; beyond that, all digits (as Go's
appendInt with width 4 behaves). -/
def padYear (n : Nat) : List Char :=
  if n < 10000 then
    [digitChar (n / 1000), digitChar (n / 100 % 10), digitChar (n / 10 % 10),
      digitChar (n % 10)]
  else natDigits n

/-- Go's zero-padding of a month or day to width two (layout fields 01, 02). -/
def padTwo (n : Nat) : List Char :=
  if n < 100 then [digitChar (n / 10), digitChar (n % 10)] else natDigits n

/-- Go's rendering of a year for layout field 2006: sign, then at least four
digits. -/
def formatYear (y : Int) : List Char :=
  if y < 0 then '-' :: padYear (-y).toNat else padYear y.toNat

/-- Models Go Time.Format with layout 2006-01-02, in UTC: the calendar date
of the UTC day containing the instant t, as YYYY-MM-DD. -/
def formatDate (t : Int) : String :=
  ⟨formatYear (civilFromDays (t / nsPerDay)).1
    ++ '-' :: padTwo (civilFromDays (t / nsPerDay)).2.1
    ++ '-' :: padTwo (civilFromDays (t / nsPerDay)).2.2⟩

/-- Models Go time.ParseInLocation with layout 2006-01-02 and location UTC:
exactly four year digits, a dash, two month digits, a dash, two day digits,
nothing else; month in 1..12 and day within the month's length; the result
is the UTC midnight starting that day.  none models a parse error. -/
def parseDate (s : String) : Option Int :=
  match s.data with
  | [y1, y2, y3, y4, h1, m1, m2, h2, d1, d2] =>
    if y1.isDigit ∧ y2.isDigit ∧ y3.isDigit ∧ y4.isDigit ∧ h1 = '-' ∧
        m1.isDigit ∧ m2.isDigit ∧ h2 = '-' ∧ d1.isDigit ∧ d2.isDigit then
      let y : Nat := 1000 * digitVal y1 + 100 * digitVal y2 + 10 * digitVal y3 + digitVal y4
      let m : Nat := 10 * digitVal m1 + digitVal m2
      let d : Nat := 10 * digitVal d1 + digitVal d2
      if 1 ≤ m ∧ m ≤ 12 ∧ 1 ≤ d ∧ d ≤ daysInMonth (y : Int) m then
        some (nsPerDay * daysFromCivil (y : Int) m d)
      else none
    else none
  | _ => none

end gotime

namespace baseline

open gotime

/-- baseline.MatchesTimestamp: matches a timestamp against a half-open range;
bounds equal to the zero value time.Time{} (modelled as none) are ignored;
endTime is exclusive.  Only the instant of the value participates. -/
def MatchesTimestamp (startTime endTime : GoTime) (value : Int) : Bool :=
  let startViolated := match startTime with
    | none => false
    | some s => decide (value < s)
  let endViolated := match endTime with
    | none => false
    | some e => decide (¬ value < e)
  if startViolated then false else if endViolated then false else true

/-- The endDate half of baseline.MatchesDate: empty endDate is ignored; a set
endDate is parsed (none models the panic on a parse error) and is inclusive. -/
def matchesDateEnd (endDate : String) (val : Int) : Option Bool :=
  if endDate = "" then some true
  else match parseDate endDate with
    | none => none
    | some ed => if ed < val then some false else some true

/-- baseline.MatchesDate: matches a date against a closed date range; the
value is always parsed, a non-empty startDate is parsed next, and the
endDate is parsed only when the start check does not already return false
(mirroring the early return in the Go code); none models a panic on any of
those parse errors. -/
def MatchesDate (startDate endDate value : String) : Option Bool :=
  match parseDate value with
  | none => none
  | some val =>
    if startDate = "" then matchesDateEnd endDate val
    else match parseDate startDate with
      | none => none
      | some sd => if val < sd then some false else matchesDateEnd endDate val

/-- baseline.WidenStartTime: truncate to the enclosing UTC day start. -/
def WidenStartTime (t : Int) : Int := truncDay t

/-- baseline.WidenEndTime: the next UTC midnight strictly after t, or t
itself when t is already a UTC midnight. -/
def WidenEndTime (t : Int) : Int :=
  if truncDay t ≠ t then truncDay t + nsPerDay else t

/-- baseline.WidenRange: widen both bounds. -/
def WidenRange (start stop : Int) : Int × Int :=
  (WidenStartTime start, WidenEndTime stop)

/-- baseline.ExampleTimestampToDate: the narrowing conversion from a
half-open instant range to a closed date range.  A set start bound is
rounded up by one day unless already day-aligned and then formatted (the
format truncates to the day); a set end bound has one day subtracted and is
then formatted; an unset bound (the zero time value, modelled none) yields
the empty string.  The UTC() normalization in the Go code does not change
the instant. -/
def ExampleTimestampToDate (startTime endTime : GoTime) : String × String :=
  ( match startTime with
    | none => ""
    | some t => formatDate (if truncDay t ≠ t then t + nsPerDay else t),
    match endTime with
    | none => ""
    | some t => formatDate (t - nsPerDay) )

/-- A parsed Go time as a GoTime value: ParseInLocation with location
time.UTC yields the nil/UTC location, so the resulting struct equals the
zero value time.Time{} exactly when its instant is the zero instant. -/
def goTimeOf (t : Int) : GoTime := if t = zeroInstant then none else some t

/-- The start bound of ExampleDateToTimestamp: empty means the zero time
value; otherwise the date is parsed as its UTC midnight (the outer none
models the panic on a parse error). -/
def parseBoundStart (startDate : String) : Option GoTime :=
  if startDate = "" then some none
  else match parseDate startDate with
    | none => none
    | some t => some (goTimeOf t)

/-- The end bound of ExampleDateToTimestamp: empty means the zero time
value; otherwise the date is parsed and one day is added to restore the
exclusive upper bound (the outer none models the panic on a parse error). -/
def parseBoundEnd (endDate : String) : Option GoTime :=
  if endDate = "" then some none
  else match parseDate endDate with
    | none => none
    | some t => some (goTimeOf (t + nsPerDay))

/-- baseline.ExampleDateToTimestamp: the inverse conversion from a closed
date range to a half-open instant range.  An empty bound maps to the zero
time value (none); a set start date is parsed as its UTC midnight; a set end
date is parsed and one day is added.  The outer none models the panic on a
parse error (the start date is parsed first, as in the Go code). -/
def ExampleDateToTimestamp (startDate endDate : String) :
    Option (GoTime × GoTime) :=
  match parseBoundStart startDate with
  | none => none
  | some startTime =>
    match parseBoundEnd endDate with
    | none => none
    | some endTime => some (startTime, endTime)

end baseline

namespace extcmd

/-- Outcome of one select statement inside the call closure of extcmd.Run:
either the context is observed done (with the recorded first cause) or the
channel operation proceeds. -/
inductive SelectOutcome (E : Type) where
  | canceled (cause : E)
  | proceeds

/-- Scheduler choices resolving the blocking points of one invocation of the
call closure: which arm wins each of its two selects and, when a response is
received, its value. -/
structure CallSchedule (E O : Type) where
  sendSelect : SelectOutcome E
  recvSelect : SelectOutcome E
  response : O

/-- Observable outcome of one invocation of the call closure: its return
value and whether the invocation enqueued a request to the input pump or
consumed a response from the output pump. -/
structure CallOutcome (E O : Type) where
  result : Except E O
  enqueuedInput : Bool
  consumedOutput : Bool

/-- The call closure built by extcmd.Run, under the mutex: terminal is the
recorded first cancellation cause when the bridge context is already done at
entry (ctx.Err() != nil, context.Cause(ctx)); encoded is the result of
appendInput; the schedule resolves the select on sending to the inputs
channel and the select on receiving from the outputs channel. -/
def call {E O : Type} (terminal : Option E) (encoded : Except E Unit)
    (sched : CallSchedule E O) : CallOutcome E O :=
  match terminal with
  | some c => ⟨Except.error c, false, false⟩
  | none =>
    match encoded with
    | Except.error e => ⟨Except.error e, false, false⟩
    | Except.ok _ =>
      match sched.sendSelect with
      | SelectOutcome.canceled c => ⟨Except.error c, false, false⟩
      | SelectOutcome.proceeds =>
        match sched.recvSelect with
        | SelectOutcome.canceled c => ⟨Except.error c, true, false⟩
        | SelectOutcome.proceeds => ⟨Except.ok sched.response, true, true⟩

end extcmd

namespace timestamptodate

/-- Index of the first occurrence of c in b (bytes.IndexRune for an ASCII
rune; the record bytes are examined one byte at a time). -/
def indexRune (b : List Char) (c : Char) : Option Nat :=
  match b with
  | [] => none
  | x :: xs => if x = c then some 0 else (indexRune xs c).map (· + 1)

/-- timestamptodate.ParseOutput: split a response record at its first tab
into the two date strings; a record without a tab is a protocol error. -/
def ParseOutput (b : List Char) : Except String (List Char × List Char) :=
  match indexRune b '\t' with
  | none => Except.error "unexpected output format"
  | some i => Except.ok (b.take i, b.drop (i + 1))

end timestamptodate

namespace gotime

/-- Specification of the century-based split of a day-of-era (0..146096)
into century, year-of-century, day-of-year, March-month and day-of-month,
together with the length of the selected month and the era-level
reconstruction identity. -/
theorem eraSplit_spec (doe c r yc doy mp d : Nat)
    (hdoe : doe ≤ 146096)
    (hc : c = (4*doe + 3) / 146097)
    (hr : r = doe - 36524 * c)
    (hyc : yc = (4*r + 3) / 1461)
    (hdoy : doy = r - (365 * yc + yc / 4))
    (hmp : mp = (5*doy + 2) / 153)
    (hd : d = doy - (153*mp + 2)/5 + 1) :
    c ≤ 3 ∧ 36524 * c + r = doe ∧ r ≤ 36524 ∧
    yc ≤ 99 ∧ (365 * yc + yc / 4) + doy = r ∧ doy ≤ 365 ∧
    mp ≤ 11 ∧ (153*mp + 2)/5 + (d - 1) = doy ∧ 1 ≤ d ∧
    d ≤ (if mp = 1 ∨ mp = 3 ∨ mp = 6 ∨ mp = 8 then 30
         else if mp = 11 then 29 else 31) ∧
    (mp = 11 → d = 29 → ((yc + 1) % 4 = 0 ∧ (yc = 99 → c = 3))) ∧
    365 * (100 * c + yc) + (100 * c + yc) / 4 - (100 * c + yc) / 100 + doy
      = doe := by
  have h1 : c ≤ 3 ∧ 36524 * c ≤ doe ∧
      (doe - 36524 * c ≤ 36523 ∨ doe = 146096) := by omega
  have h2 : r ≤ 36524 ∧ 36524 * c + r = doe := by omega
  have h3 : yc ≤ 99 ∧ 365 * yc + yc / 4 ≤ r ∧
      r - (365 * yc + yc / 4) ≤ 365 ∧
      (r - (365 * yc + yc / 4) = 365 →
        ((yc + 1) % 4 = 0 ∧ (yc = 99 → r = 36524))) := by
    omega
  have h4 : (365 * yc + yc / 4) + doy = r ∧ doy ≤ 365 := by omega
  have h5 : mp ≤ 11 ∧ (153*mp + 2)/5 ≤ doy ∧
      (153*mp + 2)/5 + (d - 1) = doy ∧ 1 ≤ d := by omega
  have h6 : d ≤ (if mp = 1 ∨ mp = 3 ∨ mp = 6 ∨ mp = 8 then 30
      else if mp = 11 then 29 else 31) := by
    split
    · omega
    · split
      · omega
      · omega
  have h7 : mp = 11 → d = 29 → ((yc + 1) % 4 = 0 ∧ (yc = 99 → c = 3)) := by
    intro hmp11 hd29
    have hdoy365 : doy = 365 := by omega
    have hl := h3.2.2.2 (by omega)
    refine ⟨hl.1, fun hyc99 => ?_⟩
    have hr365 : r = 36524 := hl.2 hyc99
    omega
  have hk : (100 * c + yc) / 4 = 25 * c + yc / 4 := by omega
  have hl : (100 * c + yc) / 100 = c := by omega
  have h8 : 365 * (100 * c + yc) + (100 * c + yc) / 4 - (100 * c + yc) / 100
      + doy = doe := by omega
  exact ⟨h1.1, h2.2, h2.1, h3.1, h4.1, h4.2, h5.1, h5.2.2.1, h5.2.2.2,
    h6, h7, h8⟩

/-- Inverse of the century-based split: the divisions of civilFromDays
recover a valid (century, year-of-century, day-of-year, month, day)
configuration. -/
theorem eraSplit_recover (c yc doy mp d : Nat)
    (hc : c ≤ 3) (hyc : yc ≤ 99)
    (hmp : mp ≤ 11) (hd1 : 1 ≤ d)
    (hdlen : d ≤ (if mp = 1 ∨ mp = 3 ∨ mp = 6 ∨ mp = 8 then 30
                  else if mp = 11 then 29 else 31))
    (hdoy : doy = (153*mp + 2)/5 + d - 1)
    (hleap : doy = 365 → ((yc + 1) % 4 = 0 ∧ (yc = 99 → c = 3))) :
    36524 * c + (365 * yc + yc / 4 + doy) ≤ 146096 ∧
    (4*(36524 * c + (365 * yc + yc / 4 + doy)) + 3) / 146097 = c ∧
    (4*(365 * yc + yc / 4 + doy) + 3) / 1461 = yc ∧
    (5*doy + 2) / 153 = mp ∧
    doy - (153*mp + 2)/5 + 1 = d := by
  have hdoyb : doy ≤ 365 ∧ (doy = 365 → (mp = 11 ∧ d = 29)) := by
    split at hdlen
    · omega
    · split at hdlen
      · omega
      · omega
  have hyq : yc / 4 ≤ 24 := by omega
  have hrb : 365 * yc + yc / 4 + doy ≤ 36524 ∧
      (365 * yc + yc / 4 + doy = 36524 → (yc = 99 ∧ doy = 365)) := by omega
  have hcrec : (4*(36524 * c + (365 * yc + yc / 4 + doy)) + 3) / 146097
      = c := by
    rcases Nat.lt_or_ge (365 * yc + yc / 4 + doy) 36524 with h | h
    · omega
    · have h365 : yc = 99 ∧ doy = 365 := hrb.2 (by omega)
      have hc3 : c = 3 := (hleap h365.2).2 h365.1
      omega
  have hyrec : (4*(365 * yc + yc / 4 + doy) + 3) / 1461 = yc := by
    rcases Nat.lt_or_ge doy 365 with h | h
    · omega
    · have := (hleap (by omega)).1
      omega
  have hmrec : (5*doy + 2) / 153 = mp := by
    interval_cases mp <;> norm_num at hdlen ⊢ <;> omega
  exact ⟨by omega, hcrec, hyrec, hmrec, by omega⟩

theorem doeOf_le (z : Int) : doeOf z ≤ 146096 := by
  unfold doeOf; omega

/-- Evaluation of daysFromCivil at an era-decomposed year. -/
theorem daysFromCivil_eval (era : Int) (yoe m d : Nat) (hyoe : yoe ≤ 399) :
    daysFromCivil (era * 400 + (yoe : Int) + (if m ≤ 2 then 1 else 0)) m d
      = era * 146097 + (doeFromCivil yoe m d : Int) - 719468 := by
  unfold daysFromCivil yShifted
  generalize (if m ≤ 2 then (1 : Int) else 0) = k
  have h0 : era * 400 + (yoe : Int) + k - k = era * 400 + (yoe : Int) := by
    ring
  rw [h0]
  have h1 : (era * 400 + (yoe : Int)) / 400 = era := by omega
  have h2 : ((era * 400 + (yoe : Int)) % 400).toNat = yoe := by omega
  rw [h1, h2]

/-- Evaluation of the era/day-of-era split at an era-decomposed day. -/
theorem eraOf_doeOf_eval (era : Int) (doe : Nat) (h : doe ≤ 146096) :
    eraOf (era * 146097 + (doe : Int) - 719468) = era ∧
    doeOf (era * 146097 + (doe : Int) - 719468) = doe := by
  unfold eraOf doeOf
  constructor <;> omega

/-- Forward round trip of the calendar decomposition: converting a day
number to a Gregorian date and back is the identity, and the date produced
is a valid one (month in range, day within the month length). -/
theorem civilFromDays_spec (z : Int) :
    daysFromCivil (civilFromDays z).1 (civilFromDays z).2.1
        (civilFromDays z).2.2 = z ∧
    1 ≤ (civilFromDays z).2.1 ∧ (civilFromDays z).2.1 ≤ 12 ∧
    1 ≤ (civilFromDays z).2.2 ∧
    (civilFromDays z).2.2
      ≤ daysInMonth (civilFromDays z).1 (civilFromDays z).2.1 := by
  have S := eraSplit_spec (doeOf z) (centuryOf (doeOf z)) (rOf (doeOf z))
    (ycOf (doeOf z)) (doyOf (doeOf z)) (mpOf (doeOf z)) (dayOf (doeOf z))
    (doeOf_le z) rfl rfl rfl rfl rfl rfl
  obtain ⟨hc, hcr, hrb, hyc, hysum, hdoyb, hmpb, hdsum, hd1, hdlen, hfeb,
    hbridge⟩ := S
  have hk4 : (100 * centuryOf (doeOf z) + ycOf (doeOf z)) / 4
      = 25 * centuryOf (doeOf z) + ycOf (doeOf z) / 4 := by omega
  have hk100 : (100 * centuryOf (doeOf z) + ycOf (doeOf z)) / 100
      = centuryOf (doeOf z) := by omega
  have hdlen30 : mpOf (doeOf z) = 1 ∨ mpOf (doeOf z) = 3 ∨
      mpOf (doeOf z) = 6 ∨ mpOf (doeOf z) = 8 → dayOf (doeOf z) ≤ 30 := by
    intro h
    rwa [if_pos h] at hdlen
  have hdlen29 : mpOf (doeOf z) = 11 → dayOf (doeOf z) ≤ 29 := by
    intro h
    rwa [if_neg (by omega), if_pos h] at hdlen
  have hdlen31 : dayOf (doeOf z) ≤ 31 := by
    split at hdlen <;> [skip; split at hdlen] <;> omega
  have hm_def : (mpOf (doeOf z) < 10 ∧
        monthOf (doeOf z) = mpOf (doeOf z) + 3) ∨
      (10 ≤ mpOf (doeOf z) ∧ monthOf (doeOf z) = mpOf (doeOf z) - 9) := by
    unfold monthOf
    split
    · exact Or.inl ⟨by assumption, rfl⟩
    · exact Or.inr ⟨by omega, rfl⟩
  have hmb : 1 ≤ monthOf (doeOf z) ∧ monthOf (doeOf z) ≤ 12 := by omega
  have hmp_rec : mpOfMonth (monthOf (doeOf z)) = mpOf (doeOf z) := by
    unfold mpOfMonth
    rcases hm_def with ⟨h, hm⟩ | ⟨h, hm⟩
    · rw [hm, if_pos (by omega)]
      omega
    · rw [hm, if_neg (by omega)]
      omega
  have hdoe_eq : doeFromCivil
      (100 * centuryOf (doeOf z) + ycOf (doeOf z)) (monthOf (doeOf z))
      (dayOf (doeOf z)) = doeOf z := by
    unfold doeFromCivil doyOfMonthDay
    rw [hmp_rec]
    omega
  have hroundtrip : daysFromCivil (civilFromDays z).1 (civilFromDays z).2.1
      (civilFromDays z).2.2 = z := by
    show daysFromCivil (yearOf z) (monthOf (doeOf z)) (dayOf (doeOf z)) = z
    unfold yearOf
    rw [daysFromCivil_eval (eraOf z)
      (100 * centuryOf (doeOf z) + ycOf (doeOf z)) (monthOf (doeOf z))
      (dayOf (doeOf z)) (by omega)]
    rw [hdoe_eq]
    unfold eraOf doeOf
    omega
  have hmonth_len : ∀ m' : Nat, 1 ≤ m' → m' ≤ 12 → m' ≠ 2 →
      daysInMonth (yearOf z) m'
        = if m' = 4 ∨ m' = 6 ∨ m' = 9 ∨ m' = 11 then 30 else 31 := by
    intro m' h1 h2 hne
    interval_cases m' <;> first
      | exact absurd rfl hne
      | norm_num [daysInMonth]
  have hdvalid : dayOf (doeOf z)
      ≤ daysInMonth (yearOf z) (monthOf (doeOf z)) := by
    by_cases h11 : mpOf (doeOf z) = 11
    · -- February
      have hmfeb : monthOf (doeOf z) = 2 := by omega
      rw [hmfeb]
      have hfl : daysInMonth (yearOf z) 2
          = if isLeap (yearOf z) then 29 else 28 := rfl
      rw [hfl]
      have hd29b := hdlen29 h11
      by_cases h29 : dayOf (doeOf z) = 29
      · have hleap2 := hfeb h11 h29
        have hyeq : yearOf z = eraOf z * 400
            + ((100 * centuryOf (doeOf z) + ycOf (doeOf z) : Nat) : Int)
            + 1 := by
          unfold yearOf
          rw [hmfeb]
          norm_num
        have hisleap : isLeap (yearOf z) = true := by
          unfold isLeap
          simp only [Bool.and_eq_true, beq_iff_eq, Bool.or_eq_true,
            bne_iff_ne, ne_eq]
          rcases Nat.lt_or_ge (ycOf (doeOf z)) 99 with hyc99 | hyc99
          · exact ⟨by omega, Or.inl (by omega)⟩
          · have hc3 := hleap2.2 (by omega)
            exact ⟨by omega, Or.inr (by omega)⟩
        rw [hisleap]
        simp
        omega
      · split <;> omega
    · -- not February
      have hne2 : monthOf (doeOf z) ≠ 2 := by omega
      rw [hmonth_len (monthOf (doeOf z)) hmb.1 hmb.2 hne2]
      split
      · exact hdlen30 (by omega)
      · exact hdlen31
  exact ⟨hroundtrip, hmb.1, hmb.2, hd1, hdvalid⟩


/-- Inverse round trip of the calendar decomposition: a valid Gregorian date
converted to a day number and back is the identity. -/
theorem daysFromCivil_inv (y : Int) (m d : Nat)
    (hm1 : 1 ≤ m) (hm2 : m ≤ 12) (hd1 : 1 ≤ d)
    (hd2 : d ≤ daysInMonth y m) :
    civilFromDays (daysFromCivil y m d) = (y, m, d) := by
  have hmpOfm : (3 ≤ m ∧ mpOfMonth m = m - 3) ∨
      (m < 3 ∧ mpOfMonth m = m + 9) := by
    unfold mpOfMonth
    split
    · exact Or.inl ⟨by assumption, rfl⟩
    · exact Or.inr ⟨by omega, rfl⟩
  have hmpb : mpOfMonth m ≤ 11 := by omega
  have hdlen : d ≤ (if mpOfMonth m = 1 ∨ mpOfMonth m = 3 ∨ mpOfMonth m = 6 ∨
      mpOfMonth m = 8 then 30 else if mpOfMonth m = 11 then 29 else 31) := by
    interval_cases m <;>
        norm_num [mpOfMonth, daysInMonth] at hd2 ⊢ <;>
      first
        | omega
        | (split at hd2 <;> omega)
  obtain ⟨w, hw⟩ : ∃ w, y - (if m ≤ 2 then (1 : Int) else 0) = w := ⟨_, rfl⟩
  have hysplit : (w / 400) * 400 + ((w % 400).toNat : Int) = w ∧
      (w % 400).toNat ≤ 399 := by omega
  have hleap : doyOfMonthDay m d = 365 →
      (((w % 400).toNat % 100 + 1) % 4 = 0 ∧
        ((w % 400).toNat % 100 = 99 → (w % 400).toNat / 100 = 3)) := by
    intro h365
    have hmd : m = 2 ∧ d = 29 := by
      unfold doyOfMonthDay at h365
      interval_cases m <;> norm_num [mpOfMonth] at h365 hdlen <;> omega
    obtain ⟨hm2', hd29⟩ := hmd
    subst hm2'
    subst hd29
    have hlp : isLeap y = true := by
      cases hb : isLeap y
      · exfalso
        have h28 : daysInMonth y 2 = 28 := by simp [daysInMonth, hb]
        omega
      · rfl
    have hmod : y % 4 = 0 ∧ (¬ y % 100 = 0 ∨ y % 400 = 0) := by
      unfold isLeap at hlp
      simp only [Bool.and_eq_true, beq_iff_eq, Bool.or_eq_true, bne_iff_ne,
        ne_eq] at hlp
      exact hlp
    have hw2 : y - 1 = w := by
      rw [← hw]
      norm_num
    omega
  have R := eraSplit_recover ((w % 400).toNat / 100) ((w % 400).toNat % 100)
    (doyOfMonthDay m d) (mpOfMonth m) d (by omega) (by omega) hmpb hd1 hdlen
    rfl hleap
  set doeE : Nat := 36524 * ((w % 400).toNat / 100)
    + (365 * ((w % 400).toNat % 100) + ((w % 400).toNat % 100) / 4
      + doyOfMonthDay m d) with hdoeE
  have hbridge : doeFromCivil (w % 400).toNat m d = doeE := by
    unfold doeFromCivil
    have hq : (w % 400).toNat / 4
        = 25 * ((w % 400).toNat / 100) + ((w % 400).toNat % 100) / 4 := by
      omega
    omega
  have hval : daysFromCivil y m d
      = (w / 400) * 146097 + (doeE : Int) - 719468 := by
    show (yShifted y m / 400) * 146097
        + (doeFromCivil (yShifted y m % 400).toNat m d : Int) - 719468 = _
    rw [show yShifted y m = w from hw, hbridge]
  have hEra := eraOf_doeOf_eval (w / 400) doeE R.1
  have hcent : centuryOf doeE = (w % 400).toNat / 100 := R.2.1
  have hrE : rOf doeE = 365 * ((w % 400).toNat % 100)
      + ((w % 400).toNat % 100) / 4 + doyOfMonthDay m d := by
    unfold rOf
    rw [hcent]
    omega
  have hycE : ycOf doeE = (w % 400).toNat % 100 := by
    unfold ycOf
    rw [hrE]
    exact R.2.2.1
  have hdoyE : doyOf doeE = doyOfMonthDay m d := by
    unfold doyOf
    rw [hrE, hycE]
    omega
  have hmpE : mpOf doeE = mpOfMonth m := by
    unfold mpOf
    rw [hdoyE]
    exact R.2.2.2.1
  have hdayE : dayOf doeE = d := by
    unfold dayOf
    rw [hdoyE, hmpE]
    exact R.2.2.2.2
  have hmon : monthOf doeE = m := by
    unfold monthOf
    rw [hmpE]
    rcases hmpOfm with ⟨h3, he⟩ | ⟨h3, he⟩
    · rw [he, if_pos (by omega)]
      omega
    · rw [he, if_neg (by omega)]
      omega
  unfold civilFromDays yearOf
  rw [hval, hEra.1, hEra.2, hcent, hycE, hmon, hdayE]
  have hyfin : ∀ k : Int, y - k = w → (w / 400) * 400
      + ((100 * ((w % 400).toNat / 100) + (w % 400).toNat % 100 : Nat) : Int)
      + k = y := by
    intro k hk
    omega
  by_cases hm2' : m ≤ 2
  · rw [if_pos hm2'] at hw ⊢
    rw [hyfin 1 hw]
  · rw [if_neg hm2'] at hw ⊢
    rw [hyfin 0 hw]


theorem digitVal_digitChar (k : Nat) (h : k ≤ 9) :
    digitVal (digitChar k) = k := by
  interval_cases k <;> decide

theorem isDigit_digitChar (k : Nat) (h : k ≤ 9) :
    (digitChar k).isDigit = true := by
  interval_cases k <;> decide

theorem isDigit_bounds (c : Char) (h : c.isDigit = true) :
    48 ≤ c.toNat ∧ c.toNat ≤ 57 := by
  simp [Char.isDigit] at h
  exact h

theorem digitChar_digitVal (c : Char) (h : c.isDigit = true) :
    digitChar (digitVal c) = c := by
  have hb : 48 ≤ c.toNat ∧ c.toNat ≤ 57 := isDigit_bounds c h
  have h48 : 48 + digitVal c = c.toNat := by
    unfold digitVal
    omega
  unfold digitChar
  rw [h48]
  exact Char.ofNat_toNat c

theorem digitVal_le (c : Char) (h : c.isDigit = true) : digitVal c ≤ 9 := by
  have hb := isDigit_bounds c h
  unfold digitVal
  omega

/-- The characters produced by formatDate when the year is in 0..9999: four
year digits, dash, two month digits, dash, two day digits. -/
theorem formatDate_data (t : Int)
    (h0 : 0 ≤ (civilFromDays (t / nsPerDay)).1)
    (h1 : (civilFromDays (t / nsPerDay)).1 ≤ 9999) :
    (formatDate t).data
      = [digitChar ((civilFromDays (t / nsPerDay)).1.toNat / 1000),
         digitChar ((civilFromDays (t / nsPerDay)).1.toNat / 100 % 10),
         digitChar ((civilFromDays (t / nsPerDay)).1.toNat / 10 % 10),
         digitChar ((civilFromDays (t / nsPerDay)).1.toNat % 10), '-',
         digitChar ((civilFromDays (t / nsPerDay)).2.1 / 10),
         digitChar ((civilFromDays (t / nsPerDay)).2.1 % 10), '-',
         digitChar ((civilFromDays (t / nsPerDay)).2.2 / 10),
         digitChar ((civilFromDays (t / nsPerDay)).2.2 % 10)] := by
  obtain ⟨-, hm1, hm2, hd1, hd2⟩ := civilFromDays_spec (t / nsPerDay)
  have hdm : daysInMonth (civilFromDays (t / nsPerDay)).1
      (civilFromDays (t / nsPerDay)).2.1 ≤ 31 := by
    unfold daysInMonth
    split <;> first | omega | (split <;> omega)
  unfold formatDate formatYear padYear padTwo
  rw [if_neg (by omega), if_pos (by omega), if_pos (by omega),
    if_pos (by omega)]
  rfl

/-- Parsing the output of formatDate recovers the UTC midnight of the day of
the formatted instant. -/
theorem parseDate_formatDate (t : Int)
    (h0 : 0 ≤ (civilFromDays (t / nsPerDay)).1)
    (h1 : (civilFromDays (t / nsPerDay)).1 ≤ 9999) :
    parseDate (formatDate t) = some (nsPerDay * (t / nsPerDay)) := by
  obtain ⟨hrt, hm1, hm2, hd1, hd2⟩ := civilFromDays_spec (t / nsPerDay)
  have hdm : daysInMonth (civilFromDays (t / nsPerDay)).1
      (civilFromDays (t / nsPerDay)).2.1 ≤ 31 := by
    unfold daysInMonth
    split <;> first | omega | (split <;> omega)
  have hs : formatDate t = ⟨[
      digitChar ((civilFromDays (t / nsPerDay)).1.toNat / 1000),
      digitChar ((civilFromDays (t / nsPerDay)).1.toNat / 100 % 10),
      digitChar ((civilFromDays (t / nsPerDay)).1.toNat / 10 % 10),
      digitChar ((civilFromDays (t / nsPerDay)).1.toNat % 10), '-',
      digitChar ((civilFromDays (t / nsPerDay)).2.1 / 10),
      digitChar ((civilFromDays (t / nsPerDay)).2.1 % 10), '-',
      digitChar ((civilFromDays (t / nsPerDay)).2.2 / 10),
      digitChar ((civilFromDays (t / nsPerDay)).2.2 % 10)]⟩ :=
    String.ext (formatDate_data t h0 h1)
  rw [hs]
  unfold parseDate
  simp only
  rw [if_pos (by
    refine ⟨isDigit_digitChar _ (by omega), isDigit_digitChar _ (by omega),
      isDigit_digitChar _ (by omega), isDigit_digitChar _ (by omega),
      by trivial,
      isDigit_digitChar _ (by omega), isDigit_digitChar _ (by omega),
      by trivial,
      isDigit_digitChar _ (by omega), isDigit_digitChar _ (by omega)⟩)]
  rw [digitVal_digitChar _ (by omega), digitVal_digitChar _ (by omega),
    digitVal_digitChar _ (by omega), digitVal_digitChar _ (by omega),
    digitVal_digitChar _ (by omega), digitVal_digitChar _ (by omega),
    digitVal_digitChar _ (by omega), digitVal_digitChar _ (by omega)]
  have hyv : 1000 * ((civilFromDays (t / nsPerDay)).1.toNat / 1000)
      + 100 * ((civilFromDays (t / nsPerDay)).1.toNat / 100 % 10)
      + 10 * ((civilFromDays (t / nsPerDay)).1.toNat / 10 % 10)
      + (civilFromDays (t / nsPerDay)).1.toNat % 10
      = (civilFromDays (t / nsPerDay)).1.toNat := by
    omega
  have hmv : 10 * ((civilFromDays (t / nsPerDay)).2.1 / 10)
      + (civilFromDays (t / nsPerDay)).2.1 % 10
      = (civilFromDays (t / nsPerDay)).2.1 := by
    omega
  have hdv : 10 * ((civilFromDays (t / nsPerDay)).2.2 / 10)
      + (civilFromDays (t / nsPerDay)).2.2 % 10
      = (civilFromDays (t / nsPerDay)).2.2 := by
    omega
  rw [hyv, hmv, hdv]
  have hcast : ((civilFromDays (t / nsPerDay)).1.toNat : Int)
      = (civilFromDays (t / nsPerDay)).1 := by
    omega
  rw [hcast]
  rw [if_pos ⟨hm1, hm2, hd1, hd2⟩]
  rw [hrt]


/-- Formatting a successfully parsed date string reproduces the string:
parseDate accepts exactly the canonical renderings. -/
theorem formatDate_parseDate (s : String) (v : Int)
    (h : parseDate s = some v) : formatDate v = s := by
  obtain ⟨L⟩ := s
  rcases L with _ | ⟨c1, L⟩
  · exact Option.noConfusion h
  rcases L with _ | ⟨c2, L⟩
  · exact Option.noConfusion h
  rcases L with _ | ⟨c3, L⟩
  · exact Option.noConfusion h
  rcases L with _ | ⟨c4, L⟩
  · exact Option.noConfusion h
  rcases L with _ | ⟨c5, L⟩
  · exact Option.noConfusion h
  rcases L with _ | ⟨c6, L⟩
  · exact Option.noConfusion h
  rcases L with _ | ⟨c7, L⟩
  · exact Option.noConfusion h
  rcases L with _ | ⟨c8, L⟩
  · exact Option.noConfusion h
  rcases L with _ | ⟨c9, L⟩
  · exact Option.noConfusion h
  rcases L with _ | ⟨c10, L⟩
  · exact Option.noConfusion h
  rcases L with _ | ⟨c11, L⟩
  swap
  · exact Option.noConfusion h
  simp only [parseDate] at h
  split at h
  swap
  · exact Option.noConfusion h
  split at h
  swap
  · exact Option.noConfusion h
  rename_i hP hP2
  obtain ⟨hg1, hg2, hg3, hg4, hdash1, hg6, hg7, hdash2, hg9, hg10⟩ := hP
  subst hdash1
  subst hdash2
  have hv := (Option.some.inj h).symm
  subst hv
  have hv1 := digitVal_le c1 hg1
  have hv2 := digitVal_le c2 hg2
  have hv3 := digitVal_le c3 hg3
  have hv4 := digitVal_le c4 hg4
  have hv6 := digitVal_le c6 hg6
  have hv7 := digitVal_le c7 hg7
  have hv9 := digitVal_le c9 hg9
  have hv10 := digitVal_le c10 hg10
  obtain ⟨hm1, hm2, hd1, hd2⟩ := hP2
  have hz : nsPerDay * daysFromCivil
      ((1000 * digitVal c1 + 100 * digitVal c2 + 10 * digitVal c3
        + digitVal c4 : Nat) : Int)
      (10 * digitVal c6 + digitVal c7) (10 * digitVal c9 + digitVal c10)
      / nsPerDay
      = daysFromCivil
        ((1000 * digitVal c1 + 100 * digitVal c2 + 10 * digitVal c3
          + digitVal c4 : Nat) : Int)
        (10 * digitVal c6 + digitVal c7)
        (10 * digitVal c9 + digitVal c10) := by
    unfold nsPerDay
    omega
  unfold formatDate
  rw [hz]
  rw [daysFromCivil_inv _ _ _ hm1 hm2 hd1 hd2]
  unfold formatYear padYear padTwo
  simp only
  rw [if_neg (by omega), if_pos (by omega), if_pos (by omega),
    if_pos (by omega)]
  have hyt : ((1000 * digitVal c1 + 100 * digitVal c2 + 10 * digitVal c3
      + digitVal c4 : Nat) : Int).toNat
      = 1000 * digitVal c1 + 100 * digitVal c2 + 10 * digitVal c3
        + digitVal c4 := by
    omega
  rw [hyt]
  rw [show (1000 * digitVal c1 + 100 * digitVal c2 + 10 * digitVal c3
      + digitVal c4) / 1000 = digitVal c1 by omega]
  rw [show (1000 * digitVal c1 + 100 * digitVal c2 + 10 * digitVal c3
      + digitVal c4) / 100 % 10 = digitVal c2 by omega]
  rw [show (1000 * digitVal c1 + 100 * digitVal c2 + 10 * digitVal c3
      + digitVal c4) / 10 % 10 = digitVal c3 by omega]
  rw [show (1000 * digitVal c1 + 100 * digitVal c2 + 10 * digitVal c3
      + digitVal c4) % 10 = digitVal c4 by omega]
  rw [show (10 * digitVal c6 + digitVal c7) / 10 = digitVal c6 by omega]
  rw [show (10 * digitVal c6 + digitVal c7) % 10 = digitVal c7 by omega]
  rw [show (10 * digitVal c9 + digitVal c10) / 10 = digitVal c9 by omega]
  rw [show (10 * digitVal c9 + digitVal c10) % 10 = digitVal c10 by omega]
  rw [digitChar_digitVal c1 hg1, digitChar_digitVal c2 hg2,
    digitChar_digitVal c3 hg3, digitChar_digitVal c4 hg4,
    digitChar_digitVal c6 hg6, digitChar_digitVal c7 hg7,
    digitChar_digitVal c9 hg9, digitChar_digitVal c10 hg10]
  rfl


theorem truncDay_mul (t : Int) : truncDay t = nsPerDay * (t / nsPerDay) := by
  unfold truncDay nsPerDay
  omega

theorem formatDate_ne_empty (t : Int) : formatDate t ≠ "" := by
  intro h
  have hd := congrArg String.data h
  unfold formatDate at hd
  simp only at hd
  rcases List.append_eq_nil.mp hd with ⟨-, h2⟩
  exact List.noConfusion h2

/-- The produced calendar year is in 0..9999 whenever the day number is in
the corresponding window (0000-01-01 is day -719468 of the era grid; era 23
ends before year 9999 does). -/
theorem yearOf_range (z : Int) (hlo : -719468 ≤ z) (hhi : z ≤ 2786859) :
    0 ≤ (civilFromDays z).1 ∧ (civilFromDays z).1 ≤ 9999 := by
  obtain ⟨hc, -, -, hyc, -⟩ := eraSplit_spec (doeOf z) (centuryOf (doeOf z))
    (rOf (doeOf z)) (ycOf (doeOf z)) (doyOf (doeOf z)) (mpOf (doeOf z))
    (dayOf (doeOf z)) (doeOf_le z) rfl rfl rfl rfl rfl rfl
  have hera : 0 ≤ eraOf z ∧ eraOf z ≤ 23 := by
    unfold eraOf
    omega
  show 0 ≤ yearOf z ∧ yearOf z ≤ 9999
  unfold yearOf
  split <;> omega

/-- Instants within double the int64 range have their day number inside the
window where formatting years stay four digits. -/
theorem zdiv_range (t : Int) (h1 : -18446744073709551616 ≤ t)
    (h2 : t ≤ 18446744073709551616) :
    -719468 ≤ t / nsPerDay ∧ t / nsPerDay ≤ 2786859 := by
  unfold nsPerDay
  omega

/-- Round trip for instants in (twice) the int64 range: parsing the
formatted date yields the UTC midnight of the containing day. -/
theorem parseDate_formatDate_int64 (t : Int)
    (h1 : -18446744073709551616 ≤ t) (h2 : t ≤ 18446744073709551616) :
    parseDate (formatDate t) = some (truncDay t) := by
  have hz := zdiv_range t h1 h2
  have hy := yearOf_range (t / nsPerDay) hz.1 hz.2
  rw [parseDate_formatDate t hy.1 hy.2, truncDay_mul]

end gotime

namespace baseline

open gotime

theorem MatchesTimestamp_none_none (x : Int) :
    MatchesTimestamp none none x = true := rfl

theorem MatchesTimestamp_some_none (s x : Int) :
    MatchesTimestamp (some s) none x = !decide (x < s) := by
  unfold MatchesTimestamp
  by_cases h : x < s <;> simp [h]

theorem MatchesTimestamp_none_some (e x : Int) :
    MatchesTimestamp none (some e) x = decide (x < e) := by
  unfold MatchesTimestamp
  by_cases h : x < e <;> simp [h]

theorem MatchesTimestamp_some_some (s e x : Int) :
    MatchesTimestamp (some s) (some e) x
      = (!decide (x < s) && decide (x < e)) := by
  unfold MatchesTimestamp
  by_cases h1 : x < s <;> by_cases h2 : x < e <;> simp [h1, h2]

/-- Evaluation of MatchesDate when the value parses and each non-empty
bound parses: the result is the closed-range comparison of the parsed
instants. -/
theorem MatchesDate_eval (sd ed vs : String) (v : Int) (sdo edo : Option Int)
    (hv : parseDate vs = some v)
    (hsd : (sd = "" ∧ sdo = none) ∨
      (∃ a, parseDate sd = some a ∧ sdo = some a ∧ sd ≠ ""))
    (hed : (ed = "" ∧ edo = none) ∨
      (∃ b, parseDate ed = some b ∧ edo = some b ∧ ed ≠ "")) :
    MatchesDate sd ed vs
      = some (sdo.elim true (fun a => !decide (v < a))
          && edo.elim true (fun b => !decide (b < v))) := by
  have hend : matchesDateEnd ed v
      = some (edo.elim true (fun b => !decide (b < v))) := by
    unfold matchesDateEnd
    rcases hed with ⟨hed1, hed2⟩ | ⟨b, hpb, hedo, hne2⟩
    · subst hed1
      subst hed2
      rw [if_pos rfl]
      rfl
    · subst hedo
      rw [if_neg hne2]
      simp only [hpb, Option.elim]
      by_cases hlt : b < v
      · rw [if_pos hlt]
        simp [hlt]
      · rw [if_neg hlt]
        simp [hlt]
  unfold MatchesDate
  simp only [hv]
  rcases hsd with ⟨hsd1, hsd2⟩ | ⟨a, hpa, hsdo, hne⟩
  · subst hsd1
    subst hsd2
    rw [if_pos rfl, hend]
    rfl
  · subst hsdo
    rw [if_neg hne]
    simp only [hpa, Option.elim]
    by_cases hlt : v < a
    · rw [if_pos hlt]
      simp [hlt]
    · rw [if_neg hlt]
      rw [hend]
      cases edo <;> simp [hlt, Option.elim]

/-- The start-bound comparison of the narrowed date range agrees with the
half-open instant rule at both representable ends of the day of v. -/
theorem start_check (s v : Int) :
    (¬ truncDay v < truncDay (if truncDay s ≠ s then s + nsPerDay else s))
      ↔ (s ≤ truncDay v ∧ s ≤ truncDay v + nsPerDay - 1) := by
  unfold truncDay nsPerDay
  split <;> omega

/-- The end-bound comparison of the narrowed date range agrees with the
half-open instant rule at both representable ends of the day of v. -/
theorem end_check (e v : Int) :
    (¬ truncDay (e - nsPerDay) < truncDay v)
      ↔ (truncDay v < e ∧ truncDay v + nsPerDay - 1 < e) := by
  unfold truncDay nsPerDay
  omega

end baseline

namespace timestamptodate

theorem indexRune_eq_none (b : List Char) (c : Char) (h : c ∉ b) :
    indexRune b c = none := by
  induction b with
  | nil => rfl
  | cons x xs ih =>
    unfold indexRune
    rw [if_neg (by intro he; exact h (he ▸ List.mem_cons_self x xs))]
    rw [ih (fun hm => h (List.mem_cons_of_mem _ hm))]
    rfl

theorem indexRune_spec (b : List Char) (c : Char) (h : c ∈ b) :
    ∃ i, indexRune b c = some i ∧ b.take i = b.takeWhile (· ≠ c) ∧
      b.drop (i + 1) = (b.dropWhile (· ≠ c)).drop 1 := by
  induction b with
  | nil => cases h
  | cons x xs ih =>
    by_cases hx : x = c
    · subst hx
      refine ⟨0, ?_, ?_, ?_⟩
      · unfold indexRune
        rw [if_pos rfl]
      · simp [List.takeWhile_cons]
      · simp [List.dropWhile_cons]
    · have hmem : c ∈ xs := by
        rcases List.mem_cons.mp h with h1 | h1
        · exact absurd h1.symm hx
        · exact h1
      obtain ⟨i, hidx, htake, hdrop⟩ := ih hmem
      refine ⟨i + 1, ?_, ?_, ?_⟩
      · unfold indexRune
        rw [if_neg hx, hidx]
        rfl
      · simp [List.takeWhile_cons, hx, htake]
      · simp [List.dropWhile_cons, hx, hdrop]

end timestamptodate

open gotime baseline

/-- C1: for every instant range with int64-representable bounds that may
independently be unset but are not both unset, where a fully set range has
its end at least 24 hours after its start, and for every UTC calendar-day
value (given by any int64 instant inside it): MatchesDate applied to the
date range produced by ExampleTimestampToDate returns true exactly when
both the day's earliest representable instant (its UTC midnight,
truncDay valueEpoch) and its latest representable instant (midnight plus 24
hours minus one nanosecond) match the original instant range under the
half-open rule MatchesTimestamp. -/
theorem claim1_fuzz_match_iff (startTime endTime : GoTime) (valueEpoch : Int)
    (hs : ∀ t, startTime = some t →
      -9223372036854775808 ≤ t ∧ t ≤ 9223372036854775807)
    (he : ∀ t, endTime = some t →
      -9223372036854775808 ≤ t ∧ t ≤ 9223372036854775807)
    (hv : -9223372036854775808 ≤ valueEpoch ∧
      valueEpoch ≤ 9223372036854775807)
    (hne : ¬ (startTime = none ∧ endTime = none))
    (hord : ∀ s e, startTime = some s → endTime = some e →
      nsPerDay ≤ e - s) :
    (MatchesDate (ExampleTimestampToDate startTime endTime).1
        (ExampleTimestampToDate startTime endTime).2
        (formatDate valueEpoch) = some true
      ↔ (MatchesTimestamp startTime endTime (truncDay valueEpoch) = true ∧
          MatchesTimestamp startTime endTime
            (truncDay valueEpoch + nsPerDay - 1) = true)) := by
  have hvparse : parseDate (formatDate valueEpoch)
      = some (truncDay valueEpoch) :=
    parseDate_formatDate_int64 valueEpoch (by omega) (by omega)
  rcases startTime with _ | s
  · rcases endTime with _ | e
    · exact absurd ⟨rfl, rfl⟩ hne
    · obtain ⟨he1, he2⟩ := he e rfl
      have hep : parseDate (formatDate (e - nsPerDay))
          = some (truncDay (e - nsPerDay)) :=
        parseDate_formatDate_int64 _ (by unfold nsPerDay; omega)
          (by unfold nsPerDay; omega)
      rw [show (ExampleTimestampToDate none (some e)).1 = "" from rfl,
        show (ExampleTimestampToDate none (some e)).2
          = formatDate (e - nsPerDay) from rfl]
      rw [MatchesDate_eval _ _ _ (truncDay valueEpoch) none
        (some (truncDay (e - nsPerDay))) hvparse (Or.inl ⟨rfl, rfl⟩)
        (Or.inr ⟨_, hep, rfl, formatDate_ne_empty _⟩)]
      rw [MatchesTimestamp_none_some, MatchesTimestamp_none_some]
      simp only [Option.elim, Bool.true_and, Option.some.injEq,
        Bool.not_eq_true', decide_eq_false_iff_not, decide_eq_true_eq]
      unfold truncDay nsPerDay
      omega
  · obtain ⟨hs1, hs2⟩ := hs s rfl
    have hsp : parseDate (formatDate (if truncDay s ≠ s then s + nsPerDay
        else s)) = some (truncDay (if truncDay s ≠ s then s + nsPerDay
        else s)) :=
      parseDate_formatDate_int64 _
        (by unfold truncDay nsPerDay; split <;> omega)
        (by unfold truncDay nsPerDay; split <;> omega)
    rcases endTime with _ | e
    · rw [show (ExampleTimestampToDate (some s) none).1
          = formatDate (if truncDay s ≠ s then s + nsPerDay else s) from rfl,
        show (ExampleTimestampToDate (some s) none).2 = "" from rfl]
      rw [MatchesDate_eval _ _ _ (truncDay valueEpoch)
        (some (truncDay (if truncDay s ≠ s then s + nsPerDay else s))) none
        hvparse (Or.inr ⟨_, hsp, rfl, formatDate_ne_empty _⟩)
        (Or.inl ⟨rfl, rfl⟩)]
      rw [MatchesTimestamp_some_none, MatchesTimestamp_some_none]
      simp only [Option.elim, Bool.and_true, Option.some.injEq,
        Bool.not_eq_true', decide_eq_false_iff_not, decide_eq_true_eq]
      unfold truncDay nsPerDay
      split <;> omega
    · obtain ⟨he1, he2⟩ := he e rfl
      have hep : parseDate (formatDate (e - nsPerDay))
          = some (truncDay (e - nsPerDay)) :=
        parseDate_formatDate_int64 _ (by unfold nsPerDay; omega)
          (by unfold nsPerDay; omega)
      rw [show (ExampleTimestampToDate (some s) (some e)).1
          = formatDate (if truncDay s ≠ s then s + nsPerDay else s) from rfl,
        show (ExampleTimestampToDate (some s) (some e)).2
          = formatDate (e - nsPerDay) from rfl]
      rw [MatchesDate_eval _ _ _ (truncDay valueEpoch)
        (some (truncDay (if truncDay s ≠ s then s + nsPerDay else s)))
        (some (truncDay (e - nsPerDay))) hvparse
        (Or.inr ⟨_, hsp, rfl, formatDate_ne_empty _⟩)
        (Or.inr ⟨_, hep, rfl, formatDate_ne_empty _⟩)]
      rw [MatchesTimestamp_some_some, MatchesTimestamp_some_some]
      simp only [Option.elim, Option.some.injEq, Bool.and_eq_true,
        Bool.not_eq_true', decide_eq_false_iff_not, decide_eq_true_eq]
      unfold truncDay nsPerDay
      split <;> omega

theorem claim1_fuzz_match_iff_witness :
    MatchesDate (ExampleTimestampToDate (some 0) none).1
        (ExampleTimestampToDate (some 0) none).2 (formatDate 0) = some true
      ↔ (MatchesTimestamp (some 0) none (truncDay 0) = true ∧
          MatchesTimestamp (some 0) none
            (truncDay 0 + nsPerDay - 1) = true) :=
  claim1_fuzz_match_iff (some 0) none 0
    (fun t ht => by
      obtain rfl := (Option.some.inj ht).symm
      exact ⟨by decide, by decide⟩)
    (fun t ht => Option.noConfusion ht)
    ⟨by decide, by decide⟩
    (fun h => Option.noConfusion h.1)
    (fun s e hseq heq => Option.noConfusion heq)

/-- C2: ExampleTimestampToDate maps the half-open instant range
2024-07-15T00:00:00+10:00 (instant 2024-07-14T14:00:00Z) to
2024-07-16T00:00:00+10:00 (instant 2024-07-15T14:00:00Z) to the inverted
pair ("2024-07-15", "2024-07-14"), returning the inverted bounds of the
empty narrowed range as-is (the function has no error channel); in general
a set start bound is rounded up by one day when not already UTC
day-aligned and a set end bound has one day subtracted, each then being
formatted as YYYY-MM-DD (formatting truncates to the UTC day). -/
theorem claim2_narrowing_example :
    ExampleTimestampToDate (some 1720965600000000000)
        (some 1721052000000000000) = ("2024-07-15", "2024-07-14") ∧
    ∀ s e : Int, ExampleTimestampToDate (some s) (some e)
      = (formatDate (if truncDay s ≠ s then s + nsPerDay else s),
          formatDate (e - nsPerDay)) :=
  ⟨by decide, fun s e => rfl⟩

/-- C5: widening is the identity on ranges already aligned to UTC day
boundaries, and widening is idempotent. -/
theorem claim5_widen_aligned_idempotent (s e : Int) :
    (truncDay s = s → truncDay e = e → WidenRange s e = (s, e)) ∧
    WidenRange (WidenRange s e).1 (WidenRange s e).2 = WidenRange s e := by
  constructor
  · intro h1 h2
    unfold WidenRange WidenStartTime WidenEndTime
    rw [h1, if_neg (fun hc => hc h2)]
  · show (WidenStartTime (WidenStartTime s), WidenEndTime (WidenEndTime e))
      = (WidenStartTime s, WidenEndTime e)
    have h1 : WidenStartTime (WidenStartTime s) = WidenStartTime s := by
      unfold WidenStartTime truncDay nsPerDay
      omega
    have h2 : WidenEndTime (WidenEndTime e) = WidenEndTime e := by
      unfold WidenEndTime truncDay nsPerDay
      split <;> (try split) <;> omega
    rw [h1, h2]

theorem claim5_widen_witness :
    WidenRange 0 86400000000000 = (0, 86400000000000) ∧
    WidenRange (WidenRange 0 86400000000000).1
        (WidenRange 0 86400000000000).2
      = WidenRange 0 86400000000000 :=
  ⟨(claim5_widen_aligned_idempotent 0 86400000000000).1 (by decide)
      (by decide),
    (claim5_widen_aligned_idempotent 0 86400000000000).2⟩

/-- C8: once the bridge context of extcmd.Run is done with a recorded
first cause, the call closure returns that cause immediately: it takes the
early-return path, enqueuing nothing to the input pump and consuming no
response, for every scheduler resolution of its select statements. -/
theorem claim8_terminal_call {E O : Type} (terminal : Option E)
    (encoded : Except E Unit) (sched : extcmd.CallSchedule E O) (c : E)
    (h : terminal = some c) :
    extcmd.call terminal encoded sched
      = ⟨Except.error c, false, false⟩ := by
  subst h
  rfl

theorem claim8_terminal_call_witness :
    @extcmd.call Nat Nat (some 7) (Except.ok ())
        ⟨extcmd.SelectOutcome.proceeds, extcmd.SelectOutcome.proceeds, 3⟩
      = ⟨Except.error 7, false, false⟩ :=
  claim8_terminal_call (some 7) (Except.ok ())
    ⟨extcmd.SelectOutcome.proceeds, extcmd.SelectOutcome.proceeds, 3⟩ 7 rfl

/-- C9: ParseOutput returns the protocol error exactly when the record
contains no tab; when a tab is present it returns, with no error, the
substrings before and after the first tab. -/
theorem claim9_parse_output (b : List Char) :
    ((¬ '\t' ∈ b) →
      timestamptodate.ParseOutput b
        = Except.error "unexpected output format") ∧
    ('\t' ∈ b → timestamptodate.ParseOutput b
      = Except.ok (b.takeWhile (· ≠ '\t'),
          (b.dropWhile (· ≠ '\t')).drop 1)) := by
  constructor
  · intro h
    unfold timestamptodate.ParseOutput
    rw [timestamptodate.indexRune_eq_none b _ h]
  · intro h
    obtain ⟨i, hidx, ht, hd⟩ := timestamptodate.indexRune_spec b _ h
    unfold timestamptodate.ParseOutput
    simp only [hidx]
    rw [ht, hd]

theorem claim9_parse_output_witness :
    timestamptodate.ParseOutput ['a', '\t', 'b']
      = Except.ok (['a'], ['b']) :=
  (claim9_parse_output ['a', '\t', 'b']).2 (by decide)

namespace gotime

/-- Every successfully parsed date value is a whole number of days in
nanoseconds (a UTC midnight). -/
theorem parseDate_exists_mul (s' : String) (v : Int)
    (h : parseDate s' = some v) : ∃ z : Int, v = nsPerDay * z := by
  obtain ⟨L⟩ := s'
  rcases L with _ | ⟨c1, L⟩
  · exact Option.noConfusion h
  rcases L with _ | ⟨c2, L⟩
  · exact Option.noConfusion h
  rcases L with _ | ⟨c3, L⟩
  · exact Option.noConfusion h
  rcases L with _ | ⟨c4, L⟩
  · exact Option.noConfusion h
  rcases L with _ | ⟨c5, L⟩
  · exact Option.noConfusion h
  rcases L with _ | ⟨c6, L⟩
  · exact Option.noConfusion h
  rcases L with _ | ⟨c7, L⟩
  · exact Option.noConfusion h
  rcases L with _ | ⟨c8, L⟩
  · exact Option.noConfusion h
  rcases L with _ | ⟨c9, L⟩
  · exact Option.noConfusion h
  rcases L with _ | ⟨c10, L⟩
  · exact Option.noConfusion h
  rcases L with _ | ⟨c11, L⟩
  swap
  · exact Option.noConfusion h
  simp only [parseDate] at h
  split at h
  swap
  · exact Option.noConfusion h
  split at h
  swap
  · exact Option.noConfusion h
  exact ⟨_, (Option.some.inj h).symm⟩

theorem truncDay_of_mul (z : Int) : truncDay (nsPerDay * z) = nsPerDay * z := by
  unfold truncDay nsPerDay
  omega

/-- Alignment of parsed dates: a parsed value is fixed by day truncation. -/
theorem parseDate_truncDay (s' : String) (v : Int)
    (h : parseDate s' = some v) : truncDay v = v := by
  obtain ⟨z, rfl⟩ := parseDate_exists_mul s' v h
  exact truncDay_of_mul z

end gotime

/-- C3 counterexample: for the instant range with both bounds set
[2024-07-15T00:00:00+10:00, 2024-07-16T00:00:00+10:00), the derived date
range is ("2024-07-15", "2024-07-14"), whose start date parses to a day
strictly after its end date: the claim that every both-set instant range
yields startDate ≤ endDate is false. -/
theorem claim3_counterexample :
    ExampleTimestampToDate (some 1720965600000000000)
        (some 1721052000000000000) = ("2024-07-15", "2024-07-14") ∧
    parseDate "2024-07-15" = some 1721001600000000000 ∧
    parseDate "2024-07-14" = some 1720915200000000000 ∧
    (1720915200000000000 : Int) < 1721001600000000000 := by
  refine ⟨by decide, by decide, by decide, by decide⟩

/-- C3 amended: for every instant range with both bounds set (within the
int64 nanosecond range) that fully contains at least one complete UTC day,
the derived date range satisfies startDate ≤ endDate, comparing the two
produced YYYY-MM-DD values as dates (via their parsed instants). -/
theorem claim3_start_le_end_amended (s e : Int)
    (hs1 : -9223372036854775808 ≤ s) (hs2 : s ≤ 9223372036854775807)
    (he1 : -9223372036854775808 ≤ e) (he2 : e ≤ 9223372036854775807)
    (hfull : ∃ k : Int, s ≤ k * nsPerDay ∧ (k + 1) * nsPerDay ≤ e) :
    ∃ a b : Int,
      parseDate (ExampleTimestampToDate (some s) (some e)).1 = some a ∧
      parseDate (ExampleTimestampToDate (some s) (some e)).2 = some b ∧
      a ≤ b := by
  refine ⟨truncDay (if truncDay s ≠ s then s + nsPerDay else s),
    truncDay (e - nsPerDay), ?_, ?_, ?_⟩
  · rw [show (ExampleTimestampToDate (some s) (some e)).1
        = formatDate (if truncDay s ≠ s then s + nsPerDay else s) from rfl]
    exact parseDate_formatDate_int64 _
      (by unfold truncDay nsPerDay; split <;> omega)
      (by unfold truncDay nsPerDay; split <;> omega)
  · rw [show (ExampleTimestampToDate (some s) (some e)).2
        = formatDate (e - nsPerDay) from rfl]
    exact parseDate_formatDate_int64 _ (by unfold nsPerDay; omega)
      (by unfold nsPerDay; omega)
  · obtain ⟨k, hk1, hk2⟩ := hfull
    unfold nsPerDay at hk1 hk2
    unfold truncDay nsPerDay
    split <;> omega

theorem claim3_start_le_end_witness :
    ∃ a b : Int,
      parseDate (ExampleTimestampToDate (some 0)
        (some 172800000000000)).1 = some a ∧
      parseDate (ExampleTimestampToDate (some 0)
        (some 172800000000000)).2 = some b ∧
      a ≤ b :=
  claim3_start_le_end_amended 0 172800000000000 (by decide) (by decide)
    (by decide) (by decide) ⟨0, by decide, by decide⟩

/-- C6: on every day-aligned, UTC-expressed, int64-representable
range/value pair, the closed date rule MatchesDate applied to the narrowed
date range and formatted date value returns exactly the same boolean as the
half-open instant rule MatchesTimestamp on the original range and value. -/
theorem claim6_matches_agree (startTime endTime : GoTime) (v : Int)
    (hs : ∀ t, startTime = some t → truncDay t = t ∧
      -9223372036854775808 ≤ t ∧ t ≤ 9223372036854775807)
    (he : ∀ t, endTime = some t → truncDay t = t ∧
      -9223372036854775808 ≤ t ∧ t ≤ 9223372036854775807)
    (hv : truncDay v = v ∧ -9223372036854775808 ≤ v ∧
      v ≤ 9223372036854775807) :
    MatchesDate (ExampleTimestampToDate startTime endTime).1
        (ExampleTimestampToDate startTime endTime).2 (formatDate v)
      = some (MatchesTimestamp startTime endTime v) := by
  obtain ⟨hva, hv1, hv2⟩ := hv
  have hvparse : parseDate (formatDate v) = some (truncDay v) :=
    parseDate_formatDate_int64 v (by omega) (by omega)
  rcases startTime with _ | s
  · rcases endTime with _ | e
    · rw [show (ExampleTimestampToDate none none).1 = "" from rfl,
        show (ExampleTimestampToDate none none).2 = "" from rfl]
      rw [MatchesDate_eval _ _ _ (truncDay v) none none hvparse
        (Or.inl ⟨rfl, rfl⟩) (Or.inl ⟨rfl, rfl⟩)]
      rfl
    · obtain ⟨hea, he1, he2⟩ := he e rfl
      have hep : parseDate (formatDate (e - nsPerDay))
          = some (truncDay (e - nsPerDay)) :=
        parseDate_formatDate_int64 _ (by unfold nsPerDay; omega)
          (by unfold nsPerDay; omega)
      rw [show (ExampleTimestampToDate none (some e)).1 = "" from rfl,
        show (ExampleTimestampToDate none (some e)).2
          = formatDate (e - nsPerDay) from rfl]
      rw [MatchesDate_eval _ _ _ (truncDay v) none
        (some (truncDay (e - nsPerDay))) hvparse (Or.inl ⟨rfl, rfl⟩)
        (Or.inr ⟨_, hep, rfl, formatDate_ne_empty _⟩),
        MatchesTimestamp_none_some]
      congr 1
      rw [Bool.eq_iff_iff]
      simp only [Option.elim, Bool.true_and, Bool.not_eq_true',
        decide_eq_false_iff_not, decide_eq_true_eq]
      unfold truncDay nsPerDay at hva hea ⊢
      omega
  · obtain ⟨hsa, hs1, hs2⟩ := hs s rfl
    have hsp : parseDate (formatDate (if truncDay s ≠ s then s + nsPerDay
        else s)) = some (truncDay (if truncDay s ≠ s then s + nsPerDay
        else s)) :=
      parseDate_formatDate_int64 _
        (by unfold truncDay nsPerDay; split <;> omega)
        (by unfold truncDay nsPerDay; split <;> omega)
    rcases endTime with _ | e
    · rw [show (ExampleTimestampToDate (some s) none).1
          = formatDate (if truncDay s ≠ s then s + nsPerDay else s) from rfl,
        show (ExampleTimestampToDate (some s) none).2 = "" from rfl]
      rw [MatchesDate_eval _ _ _ (truncDay v)
        (some (truncDay (if truncDay s ≠ s then s + nsPerDay else s))) none
        hvparse (Or.inr ⟨_, hsp, rfl, formatDate_ne_empty _⟩)
        (Or.inl ⟨rfl, rfl⟩), MatchesTimestamp_some_none]
      congr 1
      rw [Bool.eq_iff_iff]
      simp only [Option.elim, Bool.and_true, Bool.not_eq_true',
        decide_eq_false_iff_not, decide_eq_true_eq]
      unfold truncDay nsPerDay at hva hsa ⊢
      split <;> omega
    · obtain ⟨hea, he1, he2⟩ := he e rfl
      have hep : parseDate (formatDate (e - nsPerDay))
          = some (truncDay (e - nsPerDay)) :=
        parseDate_formatDate_int64 _ (by unfold nsPerDay; omega)
          (by unfold nsPerDay; omega)
      rw [show (ExampleTimestampToDate (some s) (some e)).1
          = formatDate (if truncDay s ≠ s then s + nsPerDay else s) from rfl,
        show (ExampleTimestampToDate (some s) (some e)).2
          = formatDate (e - nsPerDay) from rfl]
      rw [MatchesDate_eval _ _ _ (truncDay v)
        (some (truncDay (if truncDay s ≠ s then s + nsPerDay else s)))
        (some (truncDay (e - nsPerDay))) hvparse
        (Or.inr ⟨_, hsp, rfl, formatDate_ne_empty _⟩)
        (Or.inr ⟨_, hep, rfl, formatDate_ne_empty _⟩),
        MatchesTimestamp_some_some]
      congr 1
      rw [Bool.eq_iff_iff]
      simp only [Option.elim, Bool.and_eq_true, Bool.not_eq_true',
        decide_eq_false_iff_not, decide_eq_true_eq]
      unfold truncDay nsPerDay at hva hsa hea ⊢
      split <;> omega

theorem claim6_matches_agree_witness :
    MatchesDate (ExampleTimestampToDate (some 0)
        (some 86400000000000)).1
      (ExampleTimestampToDate (some 0) (some 86400000000000)).2
      (formatDate 0)
      = some (MatchesTimestamp (some 0) (some 86400000000000) 0) :=
  claim6_matches_agree (some 0) (some 86400000000000) 0
    (fun t ht => by
      obtain rfl := (Option.some.inj ht).symm
      exact ⟨by decide, by decide, by decide⟩)
    (fun t ht => by
      obtain rfl := (Option.some.inj ht).symm
      exact ⟨by decide, by decide, by decide⟩)
    ⟨by decide, by decide, by decide⟩

namespace baseline

theorem parseBoundStart_empty : parseBoundStart "" = some none := by
  unfold parseBoundStart
  rw [if_pos rfl]

theorem parseBoundEnd_empty : parseBoundEnd "" = some none := by
  unfold parseBoundEnd
  rw [if_pos rfl]

theorem parseBoundStart_some (d : String) (t : Int) (hne : d ≠ "")
    (hp : parseDate d = some t) :
    parseBoundStart d = some (goTimeOf t) := by
  unfold parseBoundStart
  rw [if_neg hne]
  simp only [hp]

theorem parseBoundEnd_some (d : String) (t : Int) (hne : d ≠ "")
    (hp : parseDate d = some t) :
    parseBoundEnd d = some (goTimeOf (t + nsPerDay)) := by
  unfold parseBoundEnd
  rw [if_neg hne]
  simp only [hp]

theorem parseBoundStart_none_iff (d : String) :
    parseBoundStart d = none ↔ (d ≠ "" ∧ parseDate d = none) := by
  unfold parseBoundStart
  by_cases hd : d = ""
  · rw [if_pos hd]
    simp [hd]
  · rw [if_neg hd]
    cases hp : parseDate d
    · simp [hd]
    · simp [hd]

theorem parseBoundEnd_none_iff (d : String) :
    parseBoundEnd d = none ↔ (d ≠ "" ∧ parseDate d = none) := by
  unfold parseBoundEnd
  by_cases hd : d = ""
  · rw [if_pos hd]
    simp [hd]
  · rw [if_neg hd]
    cases hp : parseDate d
    · simp [hd]
    · simp [hd]

end baseline

/-- C7 counterexample: ExampleDateToTimestamp maps the non-empty, valid
start date 0001-01-01 to the unset sentinel (the parsed instant is the Go
zero time value), so "sentinel out iff empty string in" fails. -/
theorem claim7_counterexample :
    ExampleDateToTimestamp "0001-01-01" "" = some (none, none) ∧
    ("0001-01-01" : String) ≠ "" := by
  refine ⟨by decide, by decide⟩

/-- C7 amended: ExampleTimestampToDate returns the empty string for a bound
exactly when that bound is the unset sentinel, and the sentinel-to-empty
direction of ExampleDateToTimestamp holds with two exceptions forced by the
zero-value encoding: a bound becomes the sentinel exactly when its input is
empty or its parsed instant is the Go zero time value, namely start date
0001-01-01 or end date 0000-12-31 (whose midnight plus a day is the zero
instant); in particular, converting (unset, unset) yields ("", "") and
converting ("", "") yields (unset, unset). -/
theorem claim7_unset_roundtrip_amended :
    (∀ s e : GoTime, ((ExampleTimestampToDate s e).1 = "" ↔ s = none) ∧
        ((ExampleTimestampToDate s e).2 = "" ↔ e = none)) ∧
    (∀ d1 d2 : String, ∀ st et : GoTime,
      ExampleDateToTimestamp d1 d2 = some (st, et) →
        ((st = none ↔ (d1 = "" ∨ d1 = "0001-01-01")) ∧
          (et = none ↔ (d2 = "" ∨ d2 = "0000-12-31")))) ∧
    ExampleDateToTimestamp "" "" = some (none, none) ∧
    ExampleTimestampToDate none none = ("", "") := by
  refine ⟨?_, ?_, by decide, rfl⟩
  · intro s e
    constructor
    · rcases s with _ | t
      · exact iff_of_true rfl rfl
      · constructor
        · intro hemp
          exact absurd hemp (formatDate_ne_empty _)
        · intro hc
          exact Option.noConfusion hc
    · rcases e with _ | t
      · exact iff_of_true rfl rfl
      · constructor
        · intro hemp
          exact absurd hemp (formatDate_ne_empty _)
        · intro hc
          exact Option.noConfusion hc
  · intro d1 d2 st et h
    unfold ExampleDateToTimestamp at h
    cases hps : parseBoundStart d1 with
    | none =>
      rw [hps] at h
      exact Option.noConfusion h
    | some st0 =>
      rw [hps] at h
      cases hpe : parseBoundEnd d2 with
      | none =>
        rw [hpe] at h
        exact Option.noConfusion h
      | some et0 =>
        rw [hpe] at h
        have hh := Option.some.inj h
        obtain ⟨rfl, rfl⟩ : st0 = st ∧ et0 = et :=
          ⟨congrArg Prod.fst hh, congrArg Prod.snd hh⟩
        constructor
        · by_cases hd1 : d1 = ""
          · subst hd1
            rw [parseBoundStart_empty] at hps
            obtain rfl := (Option.some.inj hps)
            simp
          · rcases hpd : parseDate d1 with _ | t
            · rw [(parseBoundStart_none_iff d1).mpr ⟨hd1, hpd⟩] at hps
              exact Option.noConfusion hps
            · rw [parseBoundStart_some d1 t hd1 hpd] at hps
              obtain rfl := (Option.some.inj hps)
              constructor
              · intro hn
                right
                have ht0 : t = zeroInstant := by
                  unfold goTimeOf at hn
                  by_cases hz : t = zeroInstant
                  · exact hz
                  · rw [if_neg hz] at hn
                    exact Option.noConfusion hn
                have hf := formatDate_parseDate d1 t hpd
                rw [ht0] at hf
                rw [← hf]
                decide
              · intro hor
                rcases hor with h1 | h1
                · exact absurd h1 hd1
                · have hpz : parseDate d1 = some zeroInstant := by
                    rw [h1]
                    decide
                  have ht0 : t = zeroInstant := by
                    rw [hpd] at hpz
                    exact Option.some.inj hpz
                  unfold goTimeOf
                  rw [if_pos ht0]
        · by_cases hd2 : d2 = ""
          · subst hd2
            rw [parseBoundEnd_empty] at hpe
            obtain rfl := (Option.some.inj hpe)
            simp
          · rcases hpd : parseDate d2 with _ | t
            · rw [(parseBoundEnd_none_iff d2).mpr ⟨hd2, hpd⟩] at hpe
              exact Option.noConfusion hpe
            · rw [parseBoundEnd_some d2 t hd2 hpd] at hpe
              obtain rfl := (Option.some.inj hpe)
              constructor
              · intro hn
                right
                have ht0 : t + nsPerDay = zeroInstant := by
                  unfold goTimeOf at hn
                  by_cases hz : t + nsPerDay = zeroInstant
                  · exact hz
                  · rw [if_neg hz] at hn
                    exact Option.noConfusion hn
                have ht1 : t = zeroInstant - nsPerDay := by omega
                have hf := formatDate_parseDate d2 t hpd
                rw [ht1] at hf
                rw [← hf]
                decide
              · intro hor
                rcases hor with h1 | h1
                · exact absurd h1 hd2
                · have hpz : parseDate d2
                      = some (zeroInstant - nsPerDay) := by
                    rw [h1]
                    decide
                  have ht0 : t = zeroInstant - nsPerDay := by
                    rw [hpd] at hpz
                    exact Option.some.inj hpz
                  unfold goTimeOf
                  rw [if_pos (by omega)]

theorem claim7_unset_roundtrip_witness :
    ((none : GoTime) = none ↔ (("" : String) = "" ∨
        ("" : String) = "0001-01-01")) ∧
    ((none : GoTime) = none ↔ (("" : String) = "" ∨
        ("" : String) = "0000-12-31")) :=
  claim7_unset_roundtrip_amended.2.1 "" "" none none (by decide)

/-- C4 counterexample: the valid date range ("0001-01-01", "") does not
survive the date-to-timestamp-to-date round trip: its start bound parses to
the Go zero time value, so it converts to the unset sentinel and back to
the empty string. -/
theorem claim4_counterexample :
    ExampleDateToTimestamp "0001-01-01" "" = some (none, none) ∧
    ExampleTimestampToDate none none = ("", "") ∧
    ¬ (("" : String) = "0001-01-01" ∧ ("" : String) = "") := by
  refine ⟨by decide, rfl, by decide⟩

/-- C4 amended: for every date range of valid (or independently empty)
YYYY-MM-DD strings whose start date is not 0001-01-01 and whose end date is
not 0000-12-31 (the two values whose parsed bound collides with the Go zero
time sentinel), converting to an instant range and back yields exactly the
original pair. -/
theorem claim4_roundtrip_amended (d1 d2 : String)
    (h1 : d1 = "" ∨ (parseDate d1).isSome)
    (h2 : d2 = "" ∨ (parseDate d2).isSome)
    (hn1 : d1 ≠ "0001-01-01") (hn2 : d2 ≠ "0000-12-31") :
    (ExampleDateToTimestamp d1 d2).map
      (fun p => ExampleTimestampToDate p.1 p.2) = some (d1, d2) := by
  have hstart : ∃ st : GoTime, parseBoundStart d1 = some st ∧
      ∀ Y : GoTime, (ExampleTimestampToDate st Y).1 = d1 := by
    by_cases hd1 : d1 = ""
    · subst hd1
      exact ⟨none, parseBoundStart_empty, fun Y => rfl⟩
    · rcases h1 with h1 | h1
      · exact absurd h1 hd1
      · obtain ⟨t, hpd⟩ := Option.isSome_iff_exists.mp h1
        have htz : t ≠ zeroInstant := by
          intro hz
          apply hn1
          have hf := formatDate_parseDate d1 t hpd
          rw [hz] at hf
          rw [← hf]
          decide
        have hgz : goTimeOf t = some t := by
          unfold goTimeOf
          rw [if_neg htz]
        refine ⟨some t, ?_, ?_⟩
        · rw [parseBoundStart_some d1 t hd1 hpd, hgz]
        · intro Y
          show formatDate (if truncDay t ≠ t then t + nsPerDay else t) = d1
          rw [if_neg (fun hc => hc (parseDate_truncDay d1 t hpd))]
          exact formatDate_parseDate d1 t hpd
  have hend : ∃ et : GoTime, parseBoundEnd d2 = some et ∧
      ∀ Y : GoTime, (ExampleTimestampToDate Y et).2 = d2 := by
    by_cases hd2 : d2 = ""
    · subst hd2
      exact ⟨none, parseBoundEnd_empty, fun Y => rfl⟩
    · rcases h2 with h2 | h2
      · exact absurd h2 hd2
      · obtain ⟨t, hpd⟩ := Option.isSome_iff_exists.mp h2
        have htz : t + nsPerDay ≠ zeroInstant := by
          intro hz
          apply hn2
          have ht1 : t = zeroInstant - nsPerDay := by omega
          have hf := formatDate_parseDate d2 t hpd
          rw [ht1] at hf
          rw [← hf]
          decide
        have hgz : goTimeOf (t + nsPerDay) = some (t + nsPerDay) := by
          unfold goTimeOf
          rw [if_neg htz]
        refine ⟨some (t + nsPerDay), ?_, ?_⟩
        · rw [parseBoundEnd_some d2 t hd2 hpd, hgz]
        · intro Y
          show formatDate (t + nsPerDay - nsPerDay) = d2
          rw [show t + nsPerDay - nsPerDay = t from by ring]
          exact formatDate_parseDate d2 t hpd
  obtain ⟨st, hst, hst2⟩ := hstart
  obtain ⟨et, het, het2⟩ := hend
  unfold ExampleDateToTimestamp
  rw [hst, het]
  show some (ExampleTimestampToDate st et) = some (d1, d2)
  refine congrArg some ?_
  calc ExampleTimestampToDate st et
      = ((ExampleTimestampToDate st et).1,
          (ExampleTimestampToDate st et).2) := rfl
    _ = (d1, d2) := by rw [hst2 et, het2 st]

theorem claim4_roundtrip_witness :
    (ExampleDateToTimestamp "1970-01-02" "").map
      (fun p => ExampleTimestampToDate p.1 p.2)
      = some ("1970-01-02", "") :=
  claim4_roundtrip_amended "1970-01-02" "" (Or.inr (by decide))
    (Or.inl rfl) (by decide) (by decide)

/-- C10 counterexample: MatchesDate panics (returns none in the model) on
the empty value even though every non-empty argument is trivially valid,
and it returns false without panicking when a non-empty endDate fails to
parse but the start check already rejects the value; so neither half of
the claim holds as stated. -/
theorem claim10_counterexample :
    MatchesDate "" "" "" = none ∧
    MatchesDate "1970-01-05" "x" "1970-01-01" = some false := by
  refine ⟨by decide, by decide⟩

/-- C10 amended: ExampleDateToTimestamp panics exactly when a non-empty
bound fails to parse as YYYY-MM-DD; MatchesDate always panics when the
value argument fails to parse (in particular when it is empty), and under
the precondition that the value parses and every non-empty bound parses,
MatchesDate does not panic. -/
theorem claim10_panic_amended :
    (∀ d1 d2 : String, ExampleDateToTimestamp d1 d2 = none ↔
      ((d1 ≠ "" ∧ parseDate d1 = none) ∨
        (d2 ≠ "" ∧ parseDate d2 = none))) ∧
    (∀ sd ed vs : String, parseDate vs = none →
      MatchesDate sd ed vs = none) ∧
    (∀ sd ed vs : String, ∀ v : Int, parseDate vs = some v →
      (sd = "" ∨ (parseDate sd).isSome) →
      (ed = "" ∨ (parseDate ed).isSome) →
      (MatchesDate sd ed vs).isSome) := by
  refine ⟨?_, ?_, ?_⟩
  · intro d1 d2
    constructor
    · intro h
      unfold ExampleDateToTimestamp at h
      cases hps : parseBoundStart d1 with
      | none => exact Or.inl ((parseBoundStart_none_iff d1).mp hps)
      | some st =>
        rw [hps] at h
        cases hpe : parseBoundEnd d2 with
        | none => exact Or.inr ((parseBoundEnd_none_iff d2).mp hpe)
        | some et =>
          rw [hpe] at h
          exact Option.noConfusion h
    · intro h
      unfold ExampleDateToTimestamp
      rcases h with ⟨hne, hp⟩ | ⟨hne, hp⟩
      · rw [(parseBoundStart_none_iff d1).mpr ⟨hne, hp⟩]
      · cases hps : parseBoundStart d1 with
        | none => rfl
        | some st =>
          rw [(parseBoundEnd_none_iff d2).mpr ⟨hne, hp⟩]
  · intro sd ed vs h
    unfold MatchesDate
    rw [h]
  · intro sd ed vs v hv hsd hed
    by_cases hsd0 : sd = ""
    · by_cases hed0 : ed = ""
      · rw [MatchesDate_eval sd ed vs v none none hv
          (Or.inl ⟨hsd0, rfl⟩) (Or.inl ⟨hed0, rfl⟩)]
        rfl
      · have hpe : ∃ b, parseDate ed = some b := by
          rcases hed with h | h
          · exact absurd h hed0
          · exact Option.isSome_iff_exists.mp h
        obtain ⟨b, hb⟩ := hpe
        rw [MatchesDate_eval sd ed vs v none (some b) hv
          (Or.inl ⟨hsd0, rfl⟩) (Or.inr ⟨b, hb, rfl, hed0⟩)]
        rfl
    · have hpa : ∃ a, parseDate sd = some a := by
        rcases hsd with h | h
        · exact absurd h hsd0
        · exact Option.isSome_iff_exists.mp h
      obtain ⟨a, ha⟩ := hpa
      by_cases hed0 : ed = ""
      · rw [MatchesDate_eval sd ed vs v (some a) none hv
          (Or.inr ⟨a, ha, rfl, hsd0⟩) (Or.inl ⟨hed0, rfl⟩)]
        rfl
      · have hpe : ∃ b, parseDate ed = some b := by
          rcases hed with h | h
          · exact absurd h hed0
          · exact Option.isSome_iff_exists.mp h
        obtain ⟨b, hb⟩ := hpe
        rw [MatchesDate_eval sd ed vs v (some a) (some b) hv
          (Or.inr ⟨a, ha, rfl, hsd0⟩) (Or.inr ⟨b, hb, rfl, hed0⟩)]
        rfl

theorem claim10_panic_witness :
    (MatchesDate "" "" "1970-01-01").isSome :=
  claim10_panic_amended.2.2 "" "" "1970-01-01" 0 (by decide) (Or.inl rfl)
    (Or.inl rfl)
